import Mathlib

/-!
Shallow embedding of `src/tracking_electoral.py`, an electoral-tracking
pipeline over survey tables: cleaning (`limpiar_datos`), demographic
aggregation (`indicadores_sociodemograficos`), daily aggregation plus
rolling-window smoothing (`tracking_electoral`, `aplicar_funcion_ventana`).

Tables are lists of records, dates are integer day codes, numeric survey
values are rationals (the pipeline's arithmetic is exact), nullable
columns are `Option`, and the Python string operations used by the
cleaner (`str.strip`, `str.lower`, `str.title`) are modelled
character-by-character for the ASCII range, which covers every string
the pipeline manipulates.
-/

attribute [local semireducible] Rat.add Rat.mul Rat.inv Rat.sub

/-! ### Python string primitives (ASCII range) -/

/-- Whitespace stripped by Python `str.strip()` (ASCII range). -/
def esPySpace (c : Char) : Bool :=
  c.toNat = 32 || c.toNat = 9 || c.toNat = 10 || c.toNat = 11 ||
    c.toNat = 12 || c.toNat = 13

/-- ASCII lower-case letter test, as used by Python case mappings. -/
def esMinuscula (c : Char) : Bool :=
  97 ≤ c.toNat && c.toNat ≤ 122

/-- ASCII upper-case letter test, as used by Python case mappings. -/
def esMayuscula (c : Char) : Bool :=
  65 ≤ c.toNat && c.toNat ≤ 90

/-- ASCII letter test: Python `str.isalpha` restricted to ASCII. -/
def esLetra (c : Char) : Bool :=
  esMayuscula c || esMinuscula c

/-- Python upper-casing of one ASCII character. -/
def aMayuscula (c : Char) : Char :=
  if esMinuscula c then Char.ofNat (c.toNat - 32) else c

/-- Python lower-casing of one ASCII character. -/
def aMinuscula (c : Char) : Char :=
  if esMayuscula c then Char.ofNat (c.toNat + 32) else c

/-- Python `str.lower()` on the character list of a string. -/
def lowerL (l : List Char) : List Char :=
  l.map aMinuscula

/-- Python `str.strip()` on the character list of a string: drop
whitespace from both ends. -/
def stripL (l : List Char) : List Char :=
  ((l.dropWhile esPySpace).reverse.dropWhile esPySpace).reverse

/-- One step of Python `str.title()`: the Boolean flag records whether the
previous character was a letter; a letter after a non-letter is
upper-cased, a letter after a letter is lower-cased. -/
def tituloChar (b : Bool) (c : Char) : Char :=
  if esLetra c then (if b then aMinuscula c else aMayuscula c) else c

/-- Python `str.title()` on a character list, threading the
previous-character-was-a-letter flag. -/
def tituloL (b : Bool) : List Char → List Char
  | [] => []
  | c :: cs => tituloChar b c :: tituloL (esLetra c) cs

/-- Python `str.strip()`. -/
def pyStrip (s : String) : String :=
  String.mk (stripL s.data)

/-- Python `str.lower()`. -/
def pyLower (s : String) : String :=
  String.mk (lowerL s.data)

/-- Python `str.title()`. -/
def pyTitle (s : String) : String :=
  String.mk (tituloL false s.data)

/-! ### Numeric helpers (pandas reductions on exact rationals) -/

/-- `Series.clip(lo, hi)` on one value: values below `lo` become `lo`,
values above `hi` become `hi`. -/
def clipQ (x lo hi : ℚ) : ℚ :=
  if x < lo then lo else if hi < x then hi else x

instance decidableEqExcept {ε α : Type} [DecidableEq ε] [DecidableEq α] :
    DecidableEq (Except ε α) := fun x y =>
  match x, y with
  | .ok a, .ok b =>
    if h : a = b then isTrue (by rw [h])
    else isFalse fun hc => h (by injection hc)
  | .error a, .error b =>
    if h : a = b then isTrue (by rw [h])
    else isFalse fun hc => h (by injection hc)
  | .ok _, .error _ => isFalse fun hc => Except.noConfusion hc
  | .error _, .ok _ => isFalse fun hc => Except.noConfusion hc

/-- Mean of a list of rationals, as pandas `mean` on a non-empty window
or group (the empty case never arises in the pipeline). -/
def meanQ (l : List ℚ) : ℚ :=
  l.sum / l.length

/-- Median of a list of rationals, as pandas `median`: middle element of
the sorted list, or the mean of the two middle elements. -/
def medianQ (l : List ℚ) : ℚ :=
  let s := List.insertionSort (fun a b : ℚ => a ≤ b) l
  if l.length % 2 = 1 then s.getD (l.length / 2) 0
  else (s.getD (l.length / 2 - 1) 0 + s.getD (l.length / 2) 0) / 2

/-! ### Data model

`FilaCruda` is one loaded survey row (all columns nullable, as in the
CSV); `FilaLimpia` is one row of the cleaned table, whose required
columns are non-null and which carries the three derived columns
`Imagen Normalizada`, `IntencionVoto` and `Edad Rango`. -/

/-- A loaded survey row: Fecha, Encuesta, Estrato, Sexo, Edad,
Nivel Educativo, Cantidad de Integrantes en el Hogar,
Imagen del Candidato, Voto, Voto Anterior. -/
structure FilaCruda where
  fecha : Option Int
  encuesta : Option String
  estrato : Option String
  sexo : Option String
  edad : Option Int
  nivelEducativo : Option String
  integrantesHogar : Option Int
  imagen : Option ℚ
  voto : Option String
  votoAnterior : Option String
deriving DecidableEq, Repr

/-- A cleaned survey row: the retained original columns plus the derived
columns computed by `limpiar_datos`. -/
structure FilaLimpia where
  fecha : Int
  encuesta : Option String
  estrato : String
  sexo : Option String
  edad : Option Int
  nivelEducativo : Option String
  integrantesHogar : Option Int
  imagen : ℚ
  voto : String
  votoAnterior : String
  imagenNormalizada : ℚ
  intencionVoto : Int
  edadRango : Option String
deriving DecidableEq, Repr

/-- View a cleaned row again as a raw row (the cleaned table fed back
into the cleaner); the derived columns are recomputed by the cleaner and
are not part of the raw view. -/
def FilaLimpia.aCruda (r : FilaLimpia) : FilaCruda :=
  ⟨some r.fecha, r.encuesta, some r.estrato, r.sexo, r.edad,
    r.nivelEducativo, r.integrantesHogar, some r.imagen,
    some r.voto, some r.votoAnterior⟩

/-- `TrackingConfig`: window size, summary-function tag, target column
and target candidate (the chart path is external plotting glue and is
not modelled). -/
structure TrackingConfig where
  ventana : Int
  tipo_resumen : String
  columna_objetivo : String
  candidato_objetivo : String
deriving DecidableEq, Repr

/-- The dataclass defaults of `TrackingConfig`. -/
def configPorDefecto : TrackingConfig :=
  ⟨3, "mean", "IntencionVoto", "Candidato A"⟩

/-! ### Cleaner (`limpiar_datos`) -/

/-- `drop_duplicates(subset=..., keep="first")`: keep a row when its key
has not been seen yet. -/
def dedupByAux {α κ : Type} [DecidableEq κ] (key : α → κ) (vistos : List κ) :
    List α → List α
  | [] => []
  | x :: xs =>
    if key x ∈ vistos then dedupByAux key vistos xs
    else x :: dedupByAux key (key x :: vistos) xs

/-- `drop_duplicates` on a whole list, starting from no seen keys. -/
def dedupBy {α κ : Type} [DecidableEq κ] (key : α → κ) (l : List α) : List α :=
  dedupByAux key [] l

/-- The dedup key of `limpiar_datos`: (Encuesta, Estrato, Sexo, Edad),
taken on the raw column values. -/
def claveDuplicados (r : FilaCruda) :
    Option String × Option String × Option String × Option Int :=
  (r.encuesta, r.estrato, r.sexo, r.edad)

/-- The `estratos_validos` mapping: lower-cased stripped stratum text to
its canonical value. -/
def estratosValidos (s : String) : Option String :=
  if s = "bajo" then some "Bajo"
  else if s = "medio" then some "Medio"
  else if s = "alto" then some "Alto"
  else none

/-- Stratum normalization column step: `astype(str).str.strip().str.lower().map(...)`;
a null raw stratum stringifies to text outside the mapping and becomes
null again, so it is dropped by the following `dropna`. -/
def normalizarEstrato : Option String → Option String
  | some s => estratosValidos (pyLower (pyStrip s))
  | none => none

/-- `pd.cut(Edad, bins=[17, 29, 44, 59, 120], labels=[...])` on one age:
right-inclusive bins, null outside every bin or for a null age. -/
def edadRangoDe : Option Int → Option String
  | none => none
  | some a =>
    if 17 < a ∧ a ≤ 29 then some "18-29"
    else if 29 < a ∧ a ≤ 44 then some "30-44"
    else if 44 < a ∧ a ≤ 59 then some "45-59"
    else if 59 < a ∧ a ≤ 120 then some "60+"
    else none

/-- The per-row part of `limpiar_datos` after deduplication: drop the
row when a required column (Fecha, Imagen del Candidato, Voto,
Voto Anterior) is null or the stratum does not normalize; otherwise
normalize the vote columns and compute the derived columns. -/
def limpiarFila (candidato : String) (r : FilaCruda) : Option FilaLimpia :=
  match r.fecha, r.imagen, r.voto, r.votoAnterior with
  | some fe, some im, some v, some va =>
    match normalizarEstrato r.estrato with
    | some e => some
      ⟨fe, r.encuesta, e, r.sexo, r.edad, r.nivelEducativo,
        r.integrantesHogar, im,
        pyTitle (pyStrip v), pyTitle (pyStrip va),
        clipQ im 0 100 / 100,
        if pyTitle (pyStrip v) = pyTitle candidato then 1 else 0,
        edadRangoDe r.edad⟩
    | none => none
  | _, _, _, _ => none

/-- `limpiar_datos`: deduplicate on (Encuesta, Estrato, Sexo, Edad)
keeping first occurrences, then apply the row-wise cleaning rules. -/
def limpiar_datos (df : List FilaCruda) (candidato_objetivo : String) :
    List FilaLimpia :=
  (dedupBy claveDuplicados df).filterMap (limpiarFila candidato_objetivo)

/-! ### Windower (`aplicar_funcion_ventana`) -/

/-- The two `ValueError` sites of `aplicar_funcion_ventana`, named as in
the specification's error taxonomy. -/
inductive ErrorVentana where
  | invalidWindow : ErrorVentana
  | unsupportedFunction : ErrorVentana
deriving DecidableEq, Repr

/-- The trailing window of `rolling(window=n, min_periods=1)` at row
`i`: rows `max 0 (i+1-n)` up to and including `i`. -/
def ventanaFilas (col : List ℚ) (n : Nat) (i : Nat) : List ℚ :=
  (col.take (i + 1)).drop (i + 1 - n)

/-- `aplicar_funcion_ventana(df, columna, ventana, funcion)`: reject a
non-positive window, then apply the tagged reduction over the trailing
window of the selected column at every row; an unrecognized tag is
rejected after the window check. The column is given as an accessor on
the row type, so the function is generic in the table like the pandas
original. -/
def aplicar_funcion_ventana {α : Type} (df : List α) (columna : α → ℚ)
    (ventana : Int) (funcion : String) : Except ErrorVentana (List ℚ) :=
  if ventana ≤ 0 then .error .invalidWindow
  else
    let col := df.map columna
    let ventanas := (List.range col.length).map (ventanaFilas col ventana.toNat)
    if funcion = "mean" then .ok (ventanas.map meanQ)
    else if funcion = "median" then .ok (ventanas.map medianQ)
    else if funcion = "sum" then .ok (ventanas.map List.sum)
    else .error .unsupportedFunction

/-- The reduction selected by a supported function tag, used to state
what the windower computes at each row. -/
def reducir (funcion : String) (w : List ℚ) : ℚ :=
  if funcion = "mean" then meanQ w
  else if funcion = "median" then medianQ w
  else List.sum w

/-! ### Aggregator and pipeline (`tracking_electoral`,
`indicadores_sociodemograficos`) -/

/-- One row of the daily series: date, mean vote intention, mean
normalized image. -/
structure FilaDiaria where
  fecha : Int
  intencionVoto : ℚ
  imagenMedia : ℚ
deriving DecidableEq, Repr

/-- The aggregated daily-series row of one date group: group means of
IntencionVoto and Imagen Normalizada over the rows of that date. -/
def filaDiariaDe (df : List FilaLimpia) (d : Int) : FilaDiaria :=
  let g := df.filter fun r => decide (r.fecha = d)
  ⟨d, meanQ (g.map fun r => (r.intencionVoto : ℚ)),
    meanQ (g.map FilaLimpia.imagenNormalizada)⟩

/-- `groupby("Fecha").agg(...)`: one row per distinct date in ascending
date order, holding the group means of IntencionVoto and
Imagen Normalizada. -/
def serie_diaria (df : List FilaLimpia) : List FilaDiaria :=
  (List.insertionSort (fun a b : Int => a ≤ b)
      (df.map FilaLimpia.fecha).dedup).map (filaDiariaDe df)

/-- Failures of `tracking_electoral`: a windowing error, or a target
column absent from the daily series (`KeyError` in pandas). -/
inductive ErrorTracking where
  | ventana : ErrorVentana → ErrorTracking
  | columnaDesconocida : ErrorTracking
deriving DecidableEq, Repr

/-- One row of the final daily tracking series: the daily series row
plus the smoothed column `TrackingSuavizado`. -/
structure FilaTracking where
  fecha : Int
  intencionVoto : ℚ
  imagenMedia : ℚ
  trackingSuavizado : ℚ
deriving DecidableEq, Repr

/-- The rational-valued columns of the daily series, by pandas column
name. -/
def columnaSerie (nombre : String) : Option (FilaDiaria → ℚ) :=
  if nombre = "IntencionVoto" then some FilaDiaria.intencionVoto
  else if nombre = "ImagenMedia" then some FilaDiaria.imagenMedia
  else none

/-- `tracking_electoral`: build the daily series, then attach the
smoothed column produced by `aplicar_funcion_ventana` on the configured
target column. The window-size guard of `aplicar_funcion_ventana` runs
before the column is indexed, so it is checked first here as well. -/
def tracking_electoral (df : List FilaLimpia) (config : TrackingConfig) :
    Except ErrorTracking (List FilaTracking) :=
  let s := serie_diaria df
  if config.ventana ≤ 0 then .error (.ventana .invalidWindow)
  else
    match columnaSerie config.columna_objetivo with
    | none => .error .columnaDesconocida
    | some acc =>
      match aplicar_funcion_ventana s acc config.ventana config.tipo_resumen with
      | .error e => .error (.ventana e)
      | .ok suav =>
        .ok (List.zipWith
          (fun (d : FilaDiaria) (q : ℚ) =>
            ⟨d.fecha, d.intencionVoto, d.imagenMedia, q⟩)
          s suav)

/-- One row of the demographic summary: the (Fecha, Sexo, Edad Rango)
key, the count `n` of non-null Encuesta values, and the group means. -/
structure FilaIndicadores where
  fecha : Int
  sexo : String
  edadRango : String
  n : Nat
  imagenMedia : ℚ
  intencionMedia : ℚ
deriving DecidableEq, Repr

/-- The grouping key of `indicadores_sociodemograficos`; null when Sexo
or Edad Rango is null, in which case `groupby` drops the row. -/
def claveDemografica (r : FilaLimpia) : Option (Int × String × String) :=
  match r.sexo, r.edadRango with
  | some s, some e => some (r.fecha, s, e)
  | _, _ => none

/-- Ascending order on demographic keys: date first, then sex
lexicographically, then age bracket (the bracket labels happen to be in
bin order lexicographically as well). -/
def claveLe (a b : Int × String × String) : Prop :=
  a.1 < b.1 ∨ (a.1 = b.1 ∧ (a.2.1 < b.2.1 ∨ (a.2.1 = b.2.1 ∧ a.2.2 ≤ b.2.2)))

instance decidableClaveLe : DecidableRel claveLe := fun a b => by
  unfold claveLe
  exact inferInstance

/-- The observed demographic keys of the cleaned table, each once, in
ascending key order (`groupby(..., observed=True)` with default
sorting). -/
def clavesDemograficas (df : List FilaLimpia) : List (Int × String × String) :=
  List.insertionSort claveLe (df.filterMap claveDemografica).dedup

/-- The aggregated row of one demographic group: `n` counts the
non-null Encuesta values of the group (pandas `count`), the means run
over Imagen del Candidato and IntencionVoto. -/
def filaIndicadores (df : List FilaLimpia) (k : Int × String × String) :
    FilaIndicadores :=
  let g := df.filter fun r => decide (claveDemografica r = some k)
  ⟨k.1, k.2.1, k.2.2, g.countP (fun r => r.encuesta.isSome),
    meanQ (g.map FilaLimpia.imagen),
    meanQ (g.map fun r => (r.intencionVoto : ℚ))⟩

/-- `indicadores_sociodemograficos`: one aggregated row per observed
demographic group. -/
def indicadores_sociodemograficos (df : List FilaLimpia) :
    List FilaIndicadores :=
  (clavesDemograficas df).map (filaIndicadores df)

/-! ### Concrete tables used as test inputs -/

/-- A raw row whose stratum is written in upper case. -/
def filaBAJO : FilaCruda :=
  ⟨some 20240101, some "E1", some "BAJO", some "M", some 30, none, none,
    some 50, some "X", some "X"⟩

/-- The same respondent data with the stratum written in lower case. -/
def filaBajoMinuscula : FilaCruda :=
  ⟨some 20240101, some "E1", some "bajo", some "M", some 30, none, none,
    some 50, some "X", some "X"⟩

/-- A table whose two rows differ only in the spelling of the stratum,
so their dedup keys differ while their normalized strata coincide. -/
def dfEstratosMixtos : List FilaCruda := [filaBAJO, filaBajoMinuscula]

/-- A raw row with a null survey identifier but non-null grouping keys. -/
def filaSinEncuesta : FilaCruda :=
  ⟨some 20240101, none, some "bajo", some "M", some 30, none, none,
    some 50, some "X", some "X"⟩

/-- A raw row voting for "Candidate A". -/
def filaVotoCandidatoA : FilaCruda :=
  ⟨some 20240101, some "E1", some "bajo", some "M", some 30, none, none,
    some 80, some "Candidate A", some "X"⟩

/-- A raw row voting for "Candidate B". -/
def filaVotoCandidatoB : FilaCruda :=
  ⟨some 20240102, some "E2", some "bajo", some "F", some 50, none, none,
    some 60, some "Candidate B", some "X"⟩

/-- The cleaned row that `limpiar_datos [filaVotoCandidatoA] "candidate a"`
produces. -/
def filaLimpiaTest : FilaLimpia :=
  ⟨20240101, some "E1", "Bajo", some "M", some 30, none, none, 80,
    "Candidate A", "X", 4/5, 1, some "30-44"⟩

/-- A cleaned row dated 2024-01-01 with vote intention 1 and normalized
image 0.8. -/
def filaLimpiaEjA : FilaLimpia :=
  ⟨20240101, some "E1", "Bajo", some "M", some 30, none, none, 80,
    "Candidato A", "X", 4/5, 1, some "30-44"⟩

/-- A cleaned row dated 2024-01-01 with vote intention 0 and normalized
image 0.6. -/
def filaLimpiaEjB : FilaLimpia :=
  ⟨20240101, some "E2", "Medio", some "F", some 50, none, none, 60,
    "Otro", "X", 3/5, 0, some "45-59"⟩

/-- The two-row cleaned table of the daily-aggregation example. -/
def dfDiarioEjemplo : List FilaLimpia := [filaLimpiaEjA, filaLimpiaEjB]

/-- A raw row with canonical stratum "Bajo". -/
def filaCanonA : FilaCruda :=
  ⟨some 1, some "E1", some "Bajo", some "M", some 30, none, none,
    some 50, some "X", some "X"⟩

/-- A second raw row with the same dedup key as `filaCanonA` but
different data. -/
def filaCanonB : FilaCruda :=
  ⟨some 2, some "E1", some "Bajo", some "M", some 30, none, none,
    some 60, some "Y", some "Y"⟩

/-- A table with canonical strata containing a duplicated dedup key. -/
def dfCanonico : List FilaCruda := [filaCanonA, filaCanonB]

/-- The cleaned table of the single row `filaSinEncuesta`. -/
def dfSinEncuestaLimpio : List FilaLimpia :=
  limpiar_datos [filaSinEncuesta] "Candidato A"

/-- The demographic-summary row produced for the group of
`filaSinEncuesta`: its `n` is 0 because the only row of the group has a
null Encuesta. -/
def filaIndicadoresEj : FilaIndicadores :=
  ⟨20240101, "M", "30-44", 0, 50, 0⟩

/-! ### Character-level facts about the Python string primitives -/

theorem toNat_charOfNat_of_valid (n : Nat) (h : n.isValidChar) :
    (Char.ofNat n).toNat = n := by
  unfold Char.ofNat
  rw [dif_pos h]
  rfl

theorem esMinuscula_true_iff (c : Char) :
    esMinuscula c = true ↔ 97 ≤ c.toNat ∧ c.toNat ≤ 122 := by
  simp [esMinuscula, Bool.and_eq_true, decide_eq_true_eq]

theorem esMayuscula_true_iff (c : Char) :
    esMayuscula c = true ↔ 65 ≤ c.toNat ∧ c.toNat ≤ 90 := by
  simp [esMayuscula, Bool.and_eq_true, decide_eq_true_eq]

theorem esPySpace_true_iff (c : Char) :
    esPySpace c = true ↔ (c.toNat = 32 ∨ c.toNat = 9 ∨ c.toNat = 10 ∨
      c.toNat = 11 ∨ c.toNat = 12 ∨ c.toNat = 13) := by
  simp only [esPySpace, Bool.or_eq_true, decide_eq_true_eq]
  tauto

theorem aMayuscula_toNat (c : Char) (h : esMinuscula c = true) :
    (aMayuscula c).toNat = c.toNat - 32 := by
  have hb := (esMinuscula_true_iff c).mp h
  have hv : (c.toNat - 32).isValidChar := by
    left
    omega
  rw [aMayuscula, if_pos h]
  exact toNat_charOfNat_of_valid _ hv

theorem aMinuscula_toNat (c : Char) (h : esMayuscula c = true) :
    (aMinuscula c).toNat = c.toNat + 32 := by
  have hb := (esMayuscula_true_iff c).mp h
  have hv : (c.toNat + 32).isValidChar := by
    left
    omega
  rw [aMinuscula, if_pos h]
  exact toNat_charOfNat_of_valid _ hv

theorem aMayuscula_id (c : Char) (h : esMinuscula c = false) :
    aMayuscula c = c := by
  rw [aMayuscula, if_neg]
  simp [h]

theorem aMinuscula_id (c : Char) (h : esMayuscula c = false) :
    aMinuscula c = c := by
  rw [aMinuscula, if_neg]
  simp [h]

theorem esLetra_aMayuscula (c : Char) : esLetra (aMayuscula c) = esLetra c := by
  cases hm : esMinuscula c with
  | false => rw [aMayuscula_id c hm]
  | true =>
    have hb := (esMinuscula_true_iff c).mp hm
    have ht := aMayuscula_toNat c hm
    have h1 : esMayuscula (aMayuscula c) = true := by
      rw [esMayuscula_true_iff, ht]
      omega
    simp [esLetra, h1, hm]

theorem esLetra_aMinuscula (c : Char) : esLetra (aMinuscula c) = esLetra c := by
  cases hm : esMayuscula c with
  | false => rw [aMinuscula_id c hm]
  | true =>
    have hb := (esMayuscula_true_iff c).mp hm
    have ht := aMinuscula_toNat c hm
    have h1 : esMinuscula (aMinuscula c) = true := by
      rw [esMinuscula_true_iff, ht]
      omega
    simp [esLetra, h1, hm]

theorem aMayuscula_aMayuscula (c : Char) :
    aMayuscula (aMayuscula c) = aMayuscula c := by
  cases hm : esMinuscula c with
  | false => rw [aMayuscula_id c hm, aMayuscula_id c hm]
  | true =>
    have hb := (esMinuscula_true_iff c).mp hm
    have ht := aMayuscula_toNat c hm
    have h1 : esMinuscula (aMayuscula c) = false := by
      rw [← Bool.not_eq_true, esMinuscula_true_iff, ht]
      omega
    exact aMayuscula_id _ h1

theorem aMinuscula_aMinuscula (c : Char) :
    aMinuscula (aMinuscula c) = aMinuscula c := by
  cases hm : esMayuscula c with
  | false => rw [aMinuscula_id c hm, aMinuscula_id c hm]
  | true =>
    have hb := (esMayuscula_true_iff c).mp hm
    have ht := aMinuscula_toNat c hm
    have h1 : esMayuscula (aMinuscula c) = false := by
      rw [← Bool.not_eq_true, esMayuscula_true_iff, ht]
      omega
    exact aMinuscula_id _ h1

theorem esPySpace_aMayuscula (c : Char) :
    esPySpace (aMayuscula c) = esPySpace c := by
  cases hm : esMinuscula c with
  | false => rw [aMayuscula_id c hm]
  | true =>
    have hb := (esMinuscula_true_iff c).mp hm
    have ht := aMayuscula_toNat c hm
    have h1 : esPySpace (aMayuscula c) = false := by
      rw [← Bool.not_eq_true, esPySpace_true_iff, ht]
      omega
    have h2 : esPySpace c = false := by
      rw [← Bool.not_eq_true, esPySpace_true_iff]
      omega
    rw [h1, h2]

theorem esPySpace_aMinuscula (c : Char) :
    esPySpace (aMinuscula c) = esPySpace c := by
  cases hm : esMayuscula c with
  | false => rw [aMinuscula_id c hm]
  | true =>
    have hb := (esMayuscula_true_iff c).mp hm
    have ht := aMinuscula_toNat c hm
    have h1 : esPySpace (aMinuscula c) = false := by
      rw [← Bool.not_eq_true, esPySpace_true_iff, ht]
      omega
    have h2 : esPySpace c = false := by
      rw [← Bool.not_eq_true, esPySpace_true_iff]
      omega
    rw [h1, h2]

theorem esLetra_tituloChar (b : Bool) (c : Char) :
    esLetra (tituloChar b c) = esLetra c := by
  cases hl : esLetra c with
  | false => simp [tituloChar, hl]
  | true =>
    cases b with
    | false => simp [tituloChar, hl, esLetra_aMayuscula]
    | true => simp [tituloChar, hl, esLetra_aMinuscula]

theorem tituloChar_tituloChar (b : Bool) (c : Char) :
    tituloChar b (tituloChar b c) = tituloChar b c := by
  cases hl : esLetra c with
  | false => simp [tituloChar, hl]
  | true =>
    cases b with
    | false =>
      simp [tituloChar, hl, esLetra_aMayuscula, aMayuscula_aMayuscula]
    | true =>
      simp [tituloChar, hl, esLetra_aMinuscula, aMinuscula_aMinuscula]

theorem esPySpace_tituloChar (b : Bool) (c : Char) :
    esPySpace (tituloChar b c) = esPySpace c := by
  cases hl : esLetra c with
  | false => simp [tituloChar, hl]
  | true =>
    cases b with
    | false => simp [tituloChar, hl, esPySpace_aMayuscula]
    | true => simp [tituloChar, hl, esPySpace_aMinuscula]

/-! ### String-level facts: `str.title` and `str.strip` behave
idempotently on the cleaner's normalized vote values -/

theorem tituloL_tituloL (l : List Char) :
    ∀ b, tituloL b (tituloL b l) = tituloL b l := by
  induction l with
  | nil => intro b; rfl
  | cons c cs ih =>
    intro b
    rw [tituloL, tituloL, tituloChar_tituloChar, esLetra_tituloChar, ih]

theorem tituloL_getLast? (l : List Char) :
    ∀ b c, l.getLast? = some c →
      ∃ b', (tituloL b l).getLast? = some (tituloChar b' c) := by
  induction l with
  | nil => intro b c h; cases h
  | cons a as ih =>
    intro b c h
    cases as with
    | nil =>
      cases h
      exact ⟨b, rfl⟩
    | cons a2 rest =>
      rw [List.getLast?_cons_cons] at h
      obtain ⟨b', hb'⟩ := ih (esLetra a) c h
      refine ⟨b', ?_⟩
      rw [tituloL]
      cases hrec : tituloL (esLetra a) (a2 :: rest) with
      | nil => cases hrec
      | cons y ys =>
        rw [List.getLast?_cons_cons, ← hrec, hb']

theorem head?_dropWhile {α : Type} (p : α → Bool) (l : List α) :
    ∀ c, (l.dropWhile p).head? = some c → p c = false := by
  induction l with
  | nil => intro c h; cases h
  | cons a as ih =>
    intro c h
    rw [List.dropWhile_cons] at h
    by_cases hp : p a = true
    · rw [if_pos hp] at h
      exact ih c h
    · rw [if_neg hp] at h
      cases h
      exact Bool.not_eq_true _ ▸ (Bool.eq_false_iff.mpr hp)

theorem dropWhile_eq_self_of_head {α : Type} (p : α → Bool) (l : List α)
    (h : ∀ c, l.head? = some c → p c = false) : l.dropWhile p = l := by
  cases l with
  | nil => rfl
  | cons a as =>
    rw [List.dropWhile_cons, if_neg]
    simp [h a rfl]

theorem stripL_getLast? (l : List Char) :
    ∀ c, (stripL l).getLast? = some c → esPySpace c = false := by
  intro c h
  rw [stripL, List.getLast?_reverse] at h
  exact head?_dropWhile esPySpace _ c h

theorem stripL_head? (l : List Char) :
    ∀ c, (stripL l).head? = some c → esPySpace c = false := by
  intro c h
  rw [stripL, List.head?_reverse] at h
  set A := l.dropWhile esPySpace with hA
  set B := A.reverse.dropWhile esPySpace with hB
  obtain ⟨t, ht⟩ : B <:+ A.reverse := List.dropWhile_suffix esPySpace
  cases hBc : B with
  | nil => rw [hBc] at h; cases h
  | cons b bs =>
    have hne : B ≠ [] := by rw [hBc]; exact List.cons_ne_nil _ _
    have h1 : A.reverse.getLast? = some c := by
      rw [← ht, List.getLast?_append]
      rw [h]
      rfl
    rw [List.getLast?_reverse] at h1
    exact head?_dropWhile esPySpace _ c h1

theorem stripL_eq_self (l : List Char)
    (hh : ∀ c, l.head? = some c → esPySpace c = false)
    (hl : ∀ c, l.getLast? = some c → esPySpace c = false) :
    stripL l = l := by
  rw [stripL, dropWhile_eq_self_of_head esPySpace l hh]
  rw [dropWhile_eq_self_of_head esPySpace l.reverse
    (fun c hc => hl c (by rwa [List.head?_reverse] at hc))]
  exact List.reverse_reverse l

theorem stripL_stripL (l : List Char) : stripL (stripL l) = stripL l :=
  stripL_eq_self _ (stripL_head? l) (stripL_getLast? l)

theorem stripL_tituloL (l : List Char)
    (hh : ∀ c, l.head? = some c → esPySpace c = false)
    (hl : ∀ c, l.getLast? = some c → esPySpace c = false) :
    stripL (tituloL false l) = tituloL false l := by
  apply stripL_eq_self
  · intro c h
    cases l with
    | nil => cases h
    | cons a as =>
      rw [tituloL] at h
      cases h
      rw [esPySpace_tituloChar]
      exact hh a rfl
  · intro c h
    cases hlast : l.getLast? with
    | none =>
      rw [List.getLast?_eq_none_iff] at hlast
      subst hlast
      cases h
    | some cl =>
      obtain ⟨b', hb'⟩ := tituloL_getLast? l false cl hlast
      rw [hb'] at h
      cases h
      rw [esPySpace_tituloChar]
      exact hl cl hlast

theorem tituloL_stripL_tituloL_stripL (l : List Char) :
    tituloL false (stripL (tituloL false (stripL l))) =
      tituloL false (stripL l) := by
  rw [stripL_tituloL (stripL l) (stripL_head? l) (stripL_getLast? l)]
  exact tituloL_tituloL (stripL l) false

theorem pyTitle_pyStrip_idem (s : String) :
    pyTitle (pyStrip (pyTitle (pyStrip s))) = pyTitle (pyStrip s) := by
  show String.mk (tituloL false (stripL (tituloL false (stripL s.data)))) =
    String.mk (tituloL false (stripL s.data))
  rw [tituloL_stripL_tituloL_stripL]

/-! ### Facts about the cleaner's row step and deduplication -/

theorem normalizarEstrato_mem (o : Option String) (e : String)
    (h : normalizarEstrato o = some e) :
    e = "Bajo" ∨ e = "Medio" ∨ e = "Alto" := by
  cases o with
  | none => exact absurd h (by simp [normalizarEstrato])
  | some s =>
    simp only [normalizarEstrato, estratosValidos] at h
    split_ifs at h <;> simp_all

theorem normalizarEstrato_canonico (e : String)
    (h : e = "Bajo" ∨ e = "Medio" ∨ e = "Alto") :
    normalizarEstrato (some e) = some e := by
  rcases h with h | h | h <;> subst h <;> decide

theorem limpiarFila_inv (c : String) (x : FilaCruda) (r : FilaLimpia)
    (h : limpiarFila c x = some r) :
    ∃ fe im v va e, x.fecha = some fe ∧ x.imagen = some im ∧
      x.voto = some v ∧ x.votoAnterior = some va ∧
      normalizarEstrato x.estrato = some e ∧
      r = ⟨fe, x.encuesta, e, x.sexo, x.edad, x.nivelEducativo,
        x.integrantesHogar, im, pyTitle (pyStrip v), pyTitle (pyStrip va),
        clipQ im 0 100 / 100,
        (if pyTitle (pyStrip v) = pyTitle c then 1 else 0),
        edadRangoDe x.edad⟩ := by
  rcases hfe : x.fecha with _ | fe <;>
    rcases him : x.imagen with _ | im <;>
      rcases hv : x.voto with _ | v <;>
        rcases hva : x.votoAnterior with _ | va <;>
          simp only [limpiarFila, hfe, him, hv, hva] at h <;>
            try exact absurd h (by simp)
  rcases hne : normalizarEstrato x.estrato with _ | e <;>
    rw [hne] at h
  · exact absurd h (by simp)
  · refine ⟨fe, im, v, va, e, rfl, rfl, rfl, rfl, rfl, ?_⟩
    injection h with h2
    exact h2.symm

theorem limpiarFila_aCruda (c : String) (x : FilaCruda) (r : FilaLimpia)
    (h : limpiarFila c x = some r) :
    limpiarFila c (FilaLimpia.aCruda r) = some r := by
  obtain ⟨fe, im, v, va, e, hfe, him, hv, hva, hne, hr⟩ :=
    limpiarFila_inv c x r h
  have hcan := normalizarEstrato_mem _ _ hne
  have hee : normalizarEstrato (some e) = some e :=
    normalizarEstrato_canonico e hcan
  subst hr
  simp only [limpiarFila, FilaLimpia.aCruda, hee, pyTitle_pyStrip_idem]

theorem mem_dedupByAux {α κ : Type} [DecidableEq κ] (key : α → κ) :
    ∀ (l : List α) (vistos : List κ) (a : α),
      a ∈ dedupByAux key vistos l ↔
        (key a ∉ vistos ∧
          l.find? (fun x => decide (key x = key a)) = some a) := by
  intro l
  induction l with
  | nil => intro vistos a; simp [dedupByAux]
  | cons x xs ih =>
    intro vistos a
    rw [dedupByAux]
    by_cases hk : key x ∈ vistos
    · rw [if_pos hk, ih]
      by_cases hke : key x = key a
      · constructor
        · rintro ⟨hnv, -⟩
          exact absurd (hke ▸ hk) hnv
        · rintro ⟨hnv, -⟩
          exact absurd (hke ▸ hk) hnv
      · rw [List.find?_cons_of_neg _ (by simp [hke])]
    · rw [if_neg hk]
      by_cases hke : key x = key a
      · rw [List.mem_cons, List.find?_cons_of_pos _ (by simp [hke])]
        constructor
        · rintro (rfl | hmem)
          · exact ⟨hke ▸ hk, rfl⟩
          · rw [ih] at hmem
            exact absurd (hke ▸ List.mem_cons_self _ _) hmem.1
        · rintro ⟨-, hxa⟩
          exact Or.inl (by injection hxa with h2; exact h2.symm)
      · rw [List.mem_cons, ih, List.find?_cons_of_neg _ (by simp [hke])]
        constructor
        · rintro (rfl | ⟨hnv, hf⟩)
          · exact absurd rfl hke
          · refine ⟨fun hmem => hnv (List.mem_cons_of_mem _ hmem), hf⟩
        · rintro ⟨hnv, hf⟩
          refine Or.inr ⟨?_, hf⟩
          intro hmem
          rcases List.mem_cons.mp hmem with heq | hmem2
          · exact hke heq.symm
          · exact hnv hmem2

theorem mem_dedupByAux_not_visto {α κ : Type} [DecidableEq κ] (key : α → κ)
    (l : List α) (vistos : List κ) (a : α)
    (h : a ∈ dedupByAux key vistos l) : key a ∉ vistos :=
  ((mem_dedupByAux key l vistos a).mp h).1

theorem dedupByAux_pairwise {α κ : Type} [DecidableEq κ] (key : α → κ) :
    ∀ (l : List α) (vistos : List κ),
      (dedupByAux key vistos l).Pairwise (fun a b => key a ≠ key b) := by
  intro l
  induction l with
  | nil => intro vistos; exact List.Pairwise.nil
  | cons x xs ih =>
    intro vistos
    rw [dedupByAux]
    by_cases hk : key x ∈ vistos
    · rw [if_pos hk]
      exact ih vistos
    · rw [if_neg hk]
      refine List.Pairwise.cons ?_ (ih (key x :: vistos))
      intro b hb
      have := mem_dedupByAux_not_visto key xs (key x :: vistos) b hb
      intro hxb
      exact this (hxb ▸ List.mem_cons_self _ _)

theorem dedupBy_pairwise {α κ : Type} [DecidableEq κ] (key : α → κ)
    (l : List α) :
    (dedupBy key l).Pairwise (fun a b => key a ≠ key b) :=
  dedupByAux_pairwise key l []

theorem mem_dedupBy {α κ : Type} [DecidableEq κ] (key : α → κ)
    (l : List α) (a : α) :
    a ∈ dedupBy key l ↔
      l.find? (fun x => decide (key x = key a)) = some a := by
  rw [dedupBy, mem_dedupByAux]
  simp

theorem dedupBy_subset {α κ : Type} [DecidableEq κ] (key : α → κ)
    (l : List α) (a : α) (h : a ∈ dedupBy key l) : a ∈ l :=
  List.mem_of_find?_eq_some ((mem_dedupBy key l a).mp h)

theorem dedupByAux_eq_self {α κ : Type} [DecidableEq κ] (key : α → κ) :
    ∀ (l : List α) (vistos : List κ),
      (∀ a ∈ l, key a ∉ vistos) →
      l.Pairwise (fun a b => key a ≠ key b) →
      dedupByAux key vistos l = l := by
  intro l
  induction l with
  | nil => intro vistos _ _; rfl
  | cons x xs ih =>
    intro vistos hnv hp
    rw [dedupByAux, if_neg (hnv x (List.mem_cons_self _ _))]
    congr 1
    refine ih (key x :: vistos) ?_ hp.of_cons
    intro a ha
    intro hmem
    rcases List.mem_cons.mp hmem with heq | hmem2
    · exact (List.pairwise_cons.mp hp).1 a ha heq.symm
    · exact hnv a (List.mem_cons_of_mem _ ha) hmem2

theorem dedupBy_eq_self {α κ : Type} [DecidableEq κ] (key : α → κ)
    (l : List α) (hp : l.Pairwise (fun a b => key a ≠ key b)) :
    dedupBy key l = l :=
  dedupByAux_eq_self key l [] (by simp) hp

theorem pairwise_filterMap_key {α β κ : Type} (f : α → Option β)
    (k : α → κ) (K : β → κ) :
    ∀ l : List α,
      (∀ x ∈ l, ∀ r, f x = some r → K r = k x) →
      l.Pairwise (fun a b => k a ≠ k b) →
      (l.filterMap f).Pairwise (fun a b => K a ≠ K b) := by
  intro l
  induction l with
  | nil => intro _ _; simp
  | cons x xs ih =>
    intro hkey hp
    cases hfx : f x with
    | none =>
      rw [List.filterMap_cons_none hfx]
      exact ih (fun y hy => hkey y (List.mem_cons_of_mem _ hy)) hp.of_cons
    | some r =>
      rw [List.filterMap_cons_some hfx]
      refine List.Pairwise.cons ?_
        (ih (fun y hy => hkey y (List.mem_cons_of_mem _ hy)) hp.of_cons)
      intro r2 hr2
      obtain ⟨y, hy, hfy⟩ := List.mem_filterMap.mp hr2
      rw [hkey x (List.mem_cons_self _ _) r hfx, hkey y (List.mem_cons_of_mem _ hy) r2 hfy]
      exact (List.pairwise_cons.mp hp).1 y hy

theorem filterMap_eq_self_of_some {α : Type} (f : α → Option α) :
    ∀ l : List α, (∀ a ∈ l, f a = some a) → l.filterMap f = l := by
  intro l
  induction l with
  | nil => intro _; rfl
  | cons x xs ih =>
    intro h
    rw [List.filterMap_cons_some (h x (List.mem_cons_self _ _))]
    congr 1
    exact ih fun a ha => h a (List.mem_cons_of_mem _ ha)

theorem mem_limpiar_datos (df : List FilaCruda) (c : String) (r : FilaLimpia) :
    r ∈ limpiar_datos df c ↔
      ∃ x, df.find? (fun y => decide (claveDuplicados y = claveDuplicados x)) =
          some x ∧ limpiarFila c x = some r := by
  rw [limpiar_datos, List.mem_filterMap]
  constructor
  · rintro ⟨x, hx, hfx⟩
    exact ⟨x, (mem_dedupBy _ _ _).mp hx, hfx⟩
  · rintro ⟨x, hfind, hfx⟩
    exact ⟨x, (mem_dedupBy _ _ _).mpr hfind, hfx⟩

theorem estrato_canonico_de_hip (df : List FilaCruda)
    (hcan : ∀ r ∈ df, r.estrato = none ∨ r.estrato = some "Bajo" ∨
      r.estrato = some "Medio" ∨ r.estrato = some "Alto")
    (x : FilaCruda) (hx : x ∈ df) (e : String)
    (he : normalizarEstrato x.estrato = some e) : x.estrato = some e := by
  rcases hcan x hx with h0 | h0 | h0 | h0 <;> rw [h0] at he ⊢
  · exact absurd he (by simp [normalizarEstrato])
  all_goals
    rw [normalizarEstrato_canonico _ (by simp)] at he
    exact he

theorem claveDuplicados_aCruda_eq (df : List FilaCruda) (c : String)
    (hcan : ∀ r ∈ df, r.estrato = none ∨ r.estrato = some "Bajo" ∨
      r.estrato = some "Medio" ∨ r.estrato = some "Alto") :
    ∀ x ∈ dedupBy claveDuplicados df, ∀ r, limpiarFila c x = some r →
      claveDuplicados (FilaLimpia.aCruda r) = claveDuplicados x := by
  intro x hx r hfx
  obtain ⟨fe, im, v, va, e, hfe, him, hv, hva, hne, hr⟩ :=
    limpiarFila_inv c x r hfx
  have hxe : x.estrato = some e :=
    estrato_canonico_de_hip df hcan x (dedupBy_subset _ _ _ hx) e hne
  subst hr
  simp [claveDuplicados, FilaLimpia.aCruda, hxe]

/-- C4 counterexample: the cleaner is not idempotent on every table.
The two rows of `dfEstratosMixtos` have distinct dedup keys (strata
"BAJO" and "bajo") so both survive cleaning, but their cleaned rows are
identical; re-cleaning the cleaned table deduplicates them away. -/
theorem limpiar_no_idempotente_contraejemplo :
    limpiar_datos ((limpiar_datos dfEstratosMixtos "Candidato A").map
        FilaLimpia.aCruda) "Candidato A" ≠
      limpiar_datos dfEstratosMixtos "Candidato A" := by
  decide

/-- C4 (amended): cleaning is idempotent on tables whose stratum values
are already canonical (null, "Bajo", "Medio" or "Alto"): applying
`limpiar_datos` to its own output yields the output unchanged. -/
theorem limpiar_idempotente_estratos_canonicos (df : List FilaCruda)
    (c : String)
    (hcan : ∀ r ∈ df, r.estrato = none ∨ r.estrato = some "Bajo" ∨
      r.estrato = some "Medio" ∨ r.estrato = some "Alto") :
    limpiar_datos ((limpiar_datos df c).map FilaLimpia.aCruda) c =
      limpiar_datos df c := by
  have hkey := claveDuplicados_aCruda_eq df c hcan
  have hpair_out : (limpiar_datos df c).Pairwise
      (fun a b => claveDuplicados a.aCruda ≠ claveDuplicados b.aCruda) := by
    rw [limpiar_datos]
    exact pairwise_filterMap_key (limpiarFila c) claveDuplicados
      (fun r => claveDuplicados r.aCruda) _ hkey (dedupBy_pairwise _ _)
  have hpair_map : ((limpiar_datos df c).map FilaLimpia.aCruda).Pairwise
      (fun a b => claveDuplicados a ≠ claveDuplicados b) :=
    List.pairwise_map.mpr hpair_out
  conv_lhs => rw [limpiar_datos]
  rw [dedupBy_eq_self _ _ hpair_map, List.filterMap_map]
  apply filterMap_eq_self_of_some
  intro r hr
  rw [limpiar_datos] at hr
  obtain ⟨x, hx, hfx⟩ := List.mem_filterMap.mp hr
  exact limpiarFila_aCruda c x r hfx

/-- C4 witness: the amended idempotence at the concrete canonical-strata
table `dfCanonico`. -/
theorem limpiar_idempotente_estratos_canonicos_testigo :
    limpiar_datos ((limpiar_datos dfCanonico "Candidato A").map
        FilaLimpia.aCruda) "Candidato A" =
      limpiar_datos dfCanonico "Candidato A" :=
  limpiar_idempotente_estratos_canonicos dfCanonico "Candidato A" (by decide)

/-- C7 counterexample: after cleaning `dfEstratosMixtos`, the
(survey, stratum, sex, age) combination (E1, Bajo, M, 30) appears twice
in the output, because deduplication ran on the raw stratum spellings
"BAJO" and "bajo" before normalization merged them. -/
theorem clave_limpia_duplicada_contraejemplo :
    ¬ (limpiar_datos dfEstratosMixtos "Candidato A").Pairwise
      (fun a b => (a.encuesta, a.estrato, a.sexo, a.edad) ≠
        (b.encuesta, b.estrato, b.sexo, b.edad)) := by
  decide

/-- C7 (amended): in general — with no hypothesis on the table — a
cleaned row appears in the output exactly when it is produced from the
first input row carrying its raw dedup key (first occurrence kept);
and because deduplication is keyed on the raw stratum, the
at-most-once guarantee on (survey, stratum, sex, age) holds whenever
the table's stratum values are already canonical. -/
theorem limpiar_dedup_primera_aparicion (df : List FilaCruda) (c : String) :
    (∀ r : FilaLimpia, r ∈ limpiar_datos df c ↔
      ∃ x, df.find? (fun y => decide (claveDuplicados y = claveDuplicados x)) =
          some x ∧ limpiarFila c x = some r) ∧
    ((∀ r ∈ df, r.estrato = none ∨ r.estrato = some "Bajo" ∨
        r.estrato = some "Medio" ∨ r.estrato = some "Alto") →
      (limpiar_datos df c).Pairwise
        (fun a b => (a.encuesta, a.estrato, a.sexo, a.edad) ≠
          (b.encuesta, b.estrato, b.sexo, b.edad))) := by
  constructor
  · intro r
    exact mem_limpiar_datos df c r
  · intro hcan
    have hkey := claveDuplicados_aCruda_eq df c hcan
    have hpair_out : (limpiar_datos df c).Pairwise
        (fun a b => claveDuplicados a.aCruda ≠ claveDuplicados b.aCruda) := by
      rw [limpiar_datos]
      exact pairwise_filterMap_key (limpiarFila c) claveDuplicados
        (fun r => claveDuplicados r.aCruda) _ hkey (dedupBy_pairwise _ _)
    refine hpair_out.imp ?_
    intro a b hne heq
    apply hne
    simp only [Prod.mk.injEq] at heq
    obtain ⟨h1, h2, h3, h4⟩ := heq
    simp [claveDuplicados, FilaLimpia.aCruda, h1, h2, h3, h4]

/-- C7 witness: the amended statement at the concrete canonical-strata
table `dfCanonico`, whose two rows share one dedup key; the
canonical-strata premise of the uniqueness conjunct is discharged
concretely. -/
theorem limpiar_dedup_primera_aparicion_testigo :
    (∀ r : FilaLimpia, r ∈ limpiar_datos dfCanonico "Candidato A" ↔
      ∃ x, dfCanonico.find?
          (fun y => decide (claveDuplicados y = claveDuplicados x)) =
          some x ∧ limpiarFila "Candidato A" x = some r) ∧
    (limpiar_datos dfCanonico "Candidato A").Pairwise
      (fun a b => (a.encuesta, a.estrato, a.sexo, a.edad) ≠
        (b.encuesta, b.estrato, b.sexo, b.edad)) :=
  ⟨(limpiar_dedup_primera_aparicion dfCanonico "Candidato A").1,
   (limpiar_dedup_primera_aparicion dfCanonico "Candidato A").2 (by decide)⟩

/-! ### Range invariants of the cleaned table -/

theorem clipQ_nonneg (x : ℚ) : 0 ≤ clipQ x 0 100 := by
  rw [clipQ]
  split_ifs with h1 h2
  · exact le_refl 0
  · norm_num
  · linarith [not_lt.mp h1]

theorem clipQ_le_cien (x : ℚ) : clipQ x 0 100 ≤ 100 := by
  rw [clipQ]
  split_ifs with h1 h2
  · norm_num
  · exact le_refl 100
  · exact not_lt.mp h2

/-- C3: every cleaned row has a normalized image in [0,1] equal to
clip(image, 0, 100)/100, a binary vote intention, and a canonical
stratum. -/
theorem limpieza_invariantes (df : List FilaCruda) (c : String) :
    ∀ r ∈ limpiar_datos df c,
      (0 ≤ r.imagenNormalizada ∧ r.imagenNormalizada ≤ 1) ∧
      (r.intencionVoto = 0 ∨ r.intencionVoto = 1) ∧
      (r.estrato = "Bajo" ∨ r.estrato = "Medio" ∨ r.estrato = "Alto") ∧
      r.imagenNormalizada = clipQ r.imagen 0 100 / 100 := by
  intro r hr
  rw [limpiar_datos] at hr
  obtain ⟨x, hx, hfx⟩ := List.mem_filterMap.mp hr
  obtain ⟨fe, im, v, va, e, hfe, him, hv, hva, hne, hrr⟩ :=
    limpiarFila_inv c x r hfx
  subst hrr
  refine ⟨⟨?_, ?_⟩, ?_, normalizarEstrato_mem _ _ hne, rfl⟩
  · exact div_nonneg (clipQ_nonneg im) (by norm_num)
  · rw [div_le_one (by norm_num : (0:ℚ) < 100)]
    exact clipQ_le_cien im
  · by_cases hcond : pyTitle (pyStrip v) = pyTitle c
    · exact Or.inr (by simp [hcond])
    · exact Or.inl (by simp [hcond])

/-- C3 witness: the invariants at the concrete cleaned row produced
from `filaVotoCandidatoA`. -/
theorem limpieza_invariantes_testigo :
    (0 ≤ filaLimpiaTest.imagenNormalizada ∧
      filaLimpiaTest.imagenNormalizada ≤ 1) ∧
    (filaLimpiaTest.intencionVoto = 0 ∨ filaLimpiaTest.intencionVoto = 1) ∧
    (filaLimpiaTest.estrato = "Bajo" ∨ filaLimpiaTest.estrato = "Medio" ∨
      filaLimpiaTest.estrato = "Alto") ∧
    filaLimpiaTest.imagenNormalizada = clipQ filaLimpiaTest.imagen 0 100 / 100 :=
  limpieza_invariantes [filaVotoCandidatoA] "candidate a" filaLimpiaTest
    (by decide)

/-- C6: a cleaned row's vote intention is 1 exactly when the title-cased
stripped vote equals the title-cased target candidate; equivalently, on
the cleaned table, exactly when the normalized vote column equals the
title-cased target. Concretely, target "candidate a" matches vote
"Candidate A" and not "Candidate B". -/
theorem intencion_voto_por_objetivo :
    (∀ (c : String) (x : FilaCruda) (r : FilaLimpia),
      limpiarFila c x = some r → ∀ v, x.voto = some v →
        (r.intencionVoto = 1 ↔ pyTitle (pyStrip v) = pyTitle c)) ∧
    (∀ (df : List FilaCruda) (c : String), ∀ r ∈ limpiar_datos df c,
      (r.intencionVoto = 1 ↔ r.voto = pyTitle c)) ∧
    (limpiar_datos [filaVotoCandidatoA] "candidate a").map
      FilaLimpia.intencionVoto = [1] ∧
    (limpiar_datos [filaVotoCandidatoB] "candidate a").map
      FilaLimpia.intencionVoto = [0] := by
  refine ⟨?_, ?_, by decide, by decide⟩
  · intro c x r hfx v hvx
    obtain ⟨fe, im, v', va, e, hfe, him, hv, hva, hne, hrr⟩ :=
      limpiarFila_inv c x r hfx
    have hvv : v = v' := by
      rw [hv] at hvx
      exact (Option.some.inj hvx).symm
    subst hvv
    subst hrr
    by_cases hcond : pyTitle (pyStrip v) = pyTitle c
    · simp [hcond]
    · simp [hcond]
  · intro df c r hr
    rw [limpiar_datos] at hr
    obtain ⟨x, hx, hfx⟩ := List.mem_filterMap.mp hr
    obtain ⟨fe, im, v, va, e, hfe, him, hv, hva, hne, hrr⟩ :=
      limpiarFila_inv c x r hfx
    subst hrr
    by_cases hcond : pyTitle (pyStrip v) = pyTitle c
    · simp [hcond]
    · simp [hcond]

/-- C6 witness: the matching rule applied to the concrete row voting
"Candidate A" with target "candidate a". -/
theorem intencion_voto_por_objetivo_testigo :
    filaLimpiaTest.intencionVoto = 1 ↔
      pyTitle (pyStrip "Candidate A") = pyTitle "candidate a" :=
  intencion_voto_por_objetivo.1 "candidate a" filaVotoCandidatoA
    filaLimpiaTest (by decide) "Candidate A" (by decide)

/-! ### Windower: validation and per-row reduction -/

theorem meanQ_singleton (x : ℚ) : meanQ [x] = x := by
  simp [meanQ]

theorem medianQ_singleton (x : ℚ) : medianQ [x] = x := by
  simp [medianQ, List.insertionSort, List.orderedInsert]

theorem reducir_singleton (funcion : String) (x : ℚ) :
    reducir funcion [x] = x := by
  rw [reducir]
  split_ifs
  · exact meanQ_singleton x
  · exact medianQ_singleton x
  · simp

theorem aplicar_ok_reduccion {α : Type} (df : List α) (columna : α → ℚ)
    (ventana : Int) (funcion : String) (hv : 0 < ventana)
    (hf : funcion = "mean" ∨ funcion = "median" ∨ funcion = "sum") :
    aplicar_funcion_ventana df columna ventana funcion =
      .ok ((List.range (df.map columna).length).map
        (fun i => reducir funcion
          (ventanaFilas (df.map columna) ventana.toNat i))) := by
  have hnot : ¬ ventana ≤ 0 := not_le.mpr hv
  rcases hf with rfl | rfl | rfl <;>
    simp [aplicar_funcion_ventana, hnot, reducir, List.map_map, Function.comp]

theorem aplicar_ok_length {α : Type} (df : List α) (columna : α → ℚ)
    (ventana : Int) (funcion : String) (ys : List ℚ)
    (h : aplicar_funcion_ventana df columna ventana funcion = .ok ys) :
    ys.length = df.length := by
  simp only [aplicar_funcion_ventana] at h
  split_ifs at h <;>
    (injection h with h2
     subst h2
     simp)

/-- C1: with a positive window N and a supported tag, the windower
returns one value per row, and the value at row i is the tagged
reduction (mean, median or sum) over the trailing window of rows
max 0 (i-N+1) .. i of the selected column; in particular the value at
row 0 is the raw value at row 0, at any row i < N it is the reduction
over rows 0 .. i, and the series [1,2,3,4] with window 2 and mean gives
[1, 1.5, 2.5, 3.5]. -/
theorem ventana_reduccion_por_fila {α : Type} (df : List α)
    (columna : α → ℚ) (ventana : Int) (funcion : String)
    (hv : 0 < ventana)
    (hf : funcion = "mean" ∨ funcion = "median" ∨ funcion = "sum") :
    (∃ ys, aplicar_funcion_ventana df columna ventana funcion = .ok ys ∧
      ys.length = df.length ∧
      (∀ i (h : i < ys.length),
        ys.get ⟨i, h⟩ = reducir funcion
          (((df.map columna).take (i + 1)).drop (i + 1 - ventana.toNat))) ∧
      (∀ i (h : i < ys.length), i + 1 ≤ ventana.toNat →
        ys.get ⟨i, h⟩ = reducir funcion ((df.map columna).take (i + 1))) ∧
      (∀ x, (df.map columna).head? = some x → ys.head? = some x)) ∧
    aplicar_funcion_ventana ([1, 2, 3, 4] : List ℚ) id 2 "mean" =
      .ok [1, 3/2, 5/2, 7/2] := by
  refine ⟨?_, by decide⟩
  have hn1 : 1 ≤ ventana.toNat := by omega
  refine ⟨_, aplicar_ok_reduccion df columna ventana funcion hv hf, by simp,
    ?_, ?_, ?_⟩
  · intro i h
    simp only [List.get_eq_getElem, List.getElem_map, List.getElem_range,
      ventanaFilas]
  · intro i h hle
    simp only [List.get_eq_getElem, List.getElem_map, List.getElem_range,
      ventanaFilas, Nat.sub_eq_zero_of_le hle, List.drop_zero]
  · intro x
    cases hcol : df.map columna with
    | nil =>
      intro hx
      cases hx
    | cons c cs =>
      intro hx
      injection hx with hx2
      subst hx2
      simp only [List.length_cons, List.range_succ_eq_map, List.map_cons,
        List.head?_cons, ventanaFilas, Nat.sub_eq_zero_of_le hn1,
        List.drop_zero, List.take_succ_cons, List.take_zero,
        reducir_singleton]

/-- C1 witness: the characterization instantiated at the series
[1,2,3,4] with window 2 and the mean tag. -/
theorem ventana_reduccion_por_fila_testigo :
    (∃ ys, aplicar_funcion_ventana ([1, 2, 3, 4] : List ℚ) id 2 "mean" =
        .ok ys ∧
      ys.length = ([1, 2, 3, 4] : List ℚ).length ∧
      (∀ i (h : i < ys.length),
        ys.get ⟨i, h⟩ = reducir "mean"
          (((([1, 2, 3, 4] : List ℚ).map id).take (i + 1)).drop
            (i + 1 - (2 : Int).toNat))) ∧
      (∀ i (h : i < ys.length), i + 1 ≤ (2 : Int).toNat →
        ys.get ⟨i, h⟩ =
          reducir "mean" ((([1, 2, 3, 4] : List ℚ).map id).take (i + 1))) ∧
      (∀ x, (([1, 2, 3, 4] : List ℚ).map id).head? = some x →
        ys.head? = some x)) ∧
    aplicar_funcion_ventana ([1, 2, 3, 4] : List ℚ) id 2 "mean" =
      .ok [1, 3/2, 5/2, 7/2] :=
  ventana_reduccion_por_fila [1, 2, 3, 4] id 2 "mean" (by decide)
    (Or.inl rfl)

/-- C5: the windower rejects a non-positive window with the
invalid-window error and an unrecognized tag with the
unsupported-function error, and succeeds on a positive window with a
supported tag. -/
theorem ventana_validacion_errores {α : Type} (df : List α)
    (columna : α → ℚ) (ventana : Int) (funcion : String) :
    (ventana ≤ 0 →
      aplicar_funcion_ventana df columna ventana funcion =
        .error .invalidWindow) ∧
    (0 < ventana → funcion ≠ "mean" → funcion ≠ "median" →
      funcion ≠ "sum" →
      aplicar_funcion_ventana df columna ventana funcion =
        .error .unsupportedFunction) ∧
    (0 < ventana →
      (funcion = "mean" ∨ funcion = "median" ∨ funcion = "sum") →
      ∃ ys, aplicar_funcion_ventana df columna ventana funcion = .ok ys) := by
  refine ⟨?_, ?_, ?_⟩
  · intro h
    rw [aplicar_funcion_ventana, if_pos h]
  · intro hv h1 h2 h3
    rw [aplicar_funcion_ventana, if_neg (not_le.mpr hv)]
    simp [h1, h2, h3]
  · intro hv hf
    exact ⟨_, aplicar_ok_reduccion df columna ventana funcion hv hf⟩

/-- C5 witness: the three validation behaviors at concrete inputs. -/
theorem ventana_validacion_errores_testigo :
    aplicar_funcion_ventana ([1, 2] : List ℚ) id 0 "mean" =
      .error .invalidWindow ∧
    aplicar_funcion_ventana ([1, 2] : List ℚ) id 2 "mediana" =
      .error .unsupportedFunction ∧
    ∃ ys, aplicar_funcion_ventana ([1, 2] : List ℚ) id 2 "mean" = .ok ys :=
  ⟨(ventana_validacion_errores [1, 2] id 0 "mean").1 (by decide),
   (ventana_validacion_errores [1, 2] id 2 "mediana").2.1 (by decide)
     (by decide) (by decide) (by decide),
   (ventana_validacion_errores [1, 2] id 2 "mean").2.2 (by decide)
     (Or.inl rfl)⟩

/-- C10: the window-size check precedes the function-tag dispatch: a
non-positive window always yields the invalid-window error whatever the
tag, and the unsupported-tag error can only arise with window size at
least 1. -/
theorem ventana_chequeo_precede_funcion {α : Type} (df : List α)
    (columna : α → ℚ) (ventana : Int) (funcion : String) :
    (ventana ≤ 0 →
      aplicar_funcion_ventana df columna ventana funcion =
        .error .invalidWindow) ∧
    (aplicar_funcion_ventana df columna ventana funcion =
        .error .unsupportedFunction → 1 ≤ ventana) := by
  constructor
  · intro h
    rw [aplicar_funcion_ventana, if_pos h]
  · intro h
    by_contra hlt
    have h0 : ventana ≤ 0 := by omega
    rw [aplicar_funcion_ventana, if_pos h0] at h
    exact absurd h (by simp)

/-- C10 witness: a non-positive window wins over an unsupported tag, and
the unsupported-tag error at window 2 certifies a window of at least 1. -/
theorem ventana_chequeo_precede_funcion_testigo :
    aplicar_funcion_ventana ([1] : List ℚ) id (-3) "foo" =
      .error .invalidWindow ∧ (1 : Int) ≤ 2 :=
  ⟨(ventana_chequeo_precede_funcion [1] id (-3) "foo").1 (by decide),
   (ventana_chequeo_precede_funcion [1] id 2 "foo").2 (by decide)⟩

/-! ### Daily series: one row per date, carrying the group means -/

theorem filter_map_por_clave {κ ρ : Type} [DecidableEq κ] (F : κ → ρ)
    (keyOf : ρ → κ) (hinj : ∀ k, keyOf (F k) = k) :
    ∀ (l : List κ), l.Nodup → ∀ k,
      (l.map F).filter (fun r => decide (keyOf r = k)) =
        if k ∈ l then [F k] else [] := by
  intro l
  induction l with
  | nil => intro _ k; simp
  | cons a as ih =>
    intro hnd k
    rw [List.map_cons, List.filter_cons]
    by_cases hak : a = k
    · subst hak
      have hcond : decide (keyOf (F a) = a) = true := by simp [hinj]
      rw [if_pos hcond, ih (List.nodup_cons.mp hnd).2 a,
        if_neg (List.nodup_cons.mp hnd).1, if_pos (List.mem_cons_self a as)]
    · have hcond : ¬ decide (keyOf (F a) = k) = true := by simp [hinj, hak]
      rw [if_neg hcond, ih (List.nodup_cons.mp hnd).2 k]
      by_cases hkas : k ∈ as
      · rw [if_pos hkas, if_pos (List.mem_cons_of_mem _ hkas)]
      · rw [if_neg hkas, if_neg (fun hmem => by
          rcases List.mem_cons.mp hmem with heq | hmem2
          · exact hak heq.symm
          · exact hkas hmem2)]

theorem zipWith_proyeccion :
    ∀ (s : List FilaDiaria) (q : List ℚ), s.length ≤ q.length →
      (List.zipWith (fun (d : FilaDiaria) (x : ℚ) =>
          (⟨d.fecha, d.intencionVoto, d.imagenMedia, x⟩ : FilaTracking))
        s q).map (fun t => (t.fecha, t.intencionVoto, t.imagenMedia)) =
      s.map (fun d => (d.fecha, d.intencionVoto, d.imagenMedia))
  | [], _, _ => rfl
  | d :: ds, [], h => by simp at h
  | d :: ds, x :: xs, h => by
    simp only [List.zipWith_cons_cons, List.map_cons]
    rw [zipWith_proyeccion ds xs (by simpa using h)]

theorem mem_zipWith_tracking :
    ∀ (s : List FilaDiaria) (q : List ℚ) (t : FilaTracking),
      t ∈ List.zipWith (fun (d : FilaDiaria) (x : ℚ) =>
          (⟨d.fecha, d.intencionVoto, d.imagenMedia, x⟩ : FilaTracking)) s q →
      ∃ a ∈ s, t.fecha = a.fecha ∧ t.intencionVoto = a.intencionVoto ∧
        t.imagenMedia = a.imagenMedia := by
  intro s
  induction s with
  | nil => intro q t h; simp at h
  | cons d ds ih =>
    intro q t h
    cases q with
    | nil => simp at h
    | cons x xs =>
      rw [List.zipWith_cons_cons] at h
      rcases List.mem_cons.mp h with rfl | h2
      · exact ⟨d, List.mem_cons_self _ _, rfl, rfl, rfl⟩
      · obtain ⟨a, ha, hf⟩ := ih xs t h2
        exact ⟨a, List.mem_cons_of_mem _ ha, hf⟩

theorem tracking_ok_inv (df : List FilaLimpia) (config : TrackingConfig)
    (out : List FilaTracking)
    (h : tracking_electoral df config = .ok out) :
    ∃ suav, suav.length = (serie_diaria df).length ∧
      out = List.zipWith (fun (d : FilaDiaria) (x : ℚ) =>
        (⟨d.fecha, d.intencionVoto, d.imagenMedia, x⟩ : FilaTracking))
        (serie_diaria df) suav := by
  simp only [tracking_electoral] at h
  split_ifs at h with h0
  cases hcs : columnaSerie config.columna_objetivo with
  | none =>
    rw [hcs] at h
    exact absurd h (by simp)
  | some acc =>
    rw [hcs] at h
    simp only at h
    cases hap : aplicar_funcion_ventana (serie_diaria df) acc
        config.ventana config.tipo_resumen with
    | error e =>
      rw [hap] at h
      exact absurd h (by simp)
    | ok suav =>
      rw [hap] at h
      simp only at h
      injection h with h2
      exact ⟨suav,
        aplicar_ok_length (serie_diaria df) acc config.ventana
          config.tipo_resumen suav hap, h2.symm⟩

theorem nodup_fechas (df : List FilaLimpia) :
    (List.insertionSort (fun a b : Int => a ≤ b)
      (df.map FilaLimpia.fecha).dedup).Nodup :=
  (List.perm_insertionSort _ _).symm.nodup
    (List.nodup_dedup (df.map FilaLimpia.fecha))

theorem mem_fechas (df : List FilaLimpia) (d : Int) :
    d ∈ List.insertionSort (fun a b : Int => a ≤ b)
        (df.map FilaLimpia.fecha).dedup ↔
      d ∈ df.map FilaLimpia.fecha := by
  rw [(List.perm_insertionSort _ _).mem_iff, List.mem_dedup]

theorem serie_diaria_filter (df : List FilaLimpia) (d : Int) :
    (serie_diaria df).filter (fun t => decide (t.fecha = d)) =
      if d ∈ df.map FilaLimpia.fecha then [filaDiariaDe df d] else [] := by
  rw [serie_diaria, filter_map_por_clave (filaDiariaDe df) FilaDiaria.fecha
    (fun k => rfl) _ (nodup_fechas df) d]
  by_cases hd : d ∈ df.map FilaLimpia.fecha
  · rw [if_pos ((mem_fechas df d).mpr hd), if_pos hd]
  · rw [if_neg (fun hm => hd ((mem_fechas df d).mp hm)), if_neg hd]

/-- C2: whenever `tracking_electoral` succeeds, its output has exactly
one row per date of the cleaned table, carrying the group mean of
IntencionVoto and of Imagen Normalizada for that date; concretely, two
cleaned rows dated 2024-01-01 with intentions 1, 0 and normalized images
0.8, 0.6 yield the single daily row (0.5, 0.7). -/
theorem serie_diaria_media_por_fecha :
    (∀ (df : List FilaLimpia) (config : TrackingConfig)
        (out : List FilaTracking),
      tracking_electoral df config = Except.ok out →
      ∀ d ∈ df.map FilaLimpia.fecha,
        out.countP (fun t => decide (t.fecha = d)) = 1 ∧
        ∀ t ∈ out, t.fecha = d →
          t.intencionVoto = meanQ ((df.filter fun r =>
            decide (r.fecha = d)).map fun r => (r.intencionVoto : ℚ)) ∧
          t.imagenMedia = meanQ ((df.filter fun r =>
            decide (r.fecha = d)).map FilaLimpia.imagenNormalizada)) ∧
    (∃ out, tracking_electoral dfDiarioEjemplo configPorDefecto =
        Except.ok out ∧
      out.map (fun t => (t.fecha, t.intencionVoto, t.imagenMedia)) =
        [(20240101, 1/2, 7/10)]) := by
  constructor
  · intro df config out hok d hd
    obtain ⟨suav, hlen, hout⟩ := tracking_ok_inv df config out hok
    subst hout
    constructor
    · have e2 : (List.zipWith (fun (a : FilaDiaria) (x : ℚ) =>
            (⟨a.fecha, a.intencionVoto, a.imagenMedia, x⟩ : FilaTracking))
          (serie_diaria df) suav).countP (fun t => decide (t.fecha = d)) =
          (serie_diaria df).countP (fun s => decide (s.fecha = d)) := by
        have hproj := zipWith_proyeccion (serie_diaria df) suav
          (le_of_eq hlen.symm)
        have e1 := congrArg
          (List.countP (fun tri : Int × ℚ × ℚ => decide (tri.1 = d))) hproj
        rw [List.countP_map, List.countP_map] at e1
        exact e1
      rw [e2, List.countP_eq_length_filter, serie_diaria_filter, if_pos hd]
      rfl
    · intro t ht htd
      obtain ⟨a, ha, hf1, hf2, hf3⟩ :=
        mem_zipWith_tracking (serie_diaria df) suav t ht
      have had : a.fecha = d := by
        rw [← hf1]
        exact htd
      have haf : a ∈ (serie_diaria df).filter
          (fun s => decide (s.fecha = d)) :=
        List.mem_filter.mpr ⟨ha, by simp [had]⟩
      rw [serie_diaria_filter, if_pos hd] at haf
      have ha2 : a = filaDiariaDe df d := by simpa using haf
      subst ha2
      exact ⟨by rw [hf2]; rfl, by rw [hf3]; rfl⟩
  · exact ⟨_, rfl, by decide⟩

/-- C2 witness: the per-date characterization at the concrete two-row
table `dfDiarioEjemplo` with the default configuration. -/
theorem serie_diaria_media_por_fecha_testigo :
    ([(⟨20240101, 1/2, 7/10, 1/2⟩ : FilaTracking)]).countP
        (fun t => decide (t.fecha = 20240101)) = 1 ∧
    ∀ t ∈ [(⟨20240101, 1/2, 7/10, 1/2⟩ : FilaTracking)],
      t.fecha = 20240101 →
      t.intencionVoto = meanQ ((dfDiarioEjemplo.filter fun r =>
        decide (r.fecha = 20240101)).map fun r => (r.intencionVoto : ℚ)) ∧
      t.imagenMedia = meanQ ((dfDiarioEjemplo.filter fun r =>
        decide (r.fecha = 20240101)).map FilaLimpia.imagenNormalizada) :=
  serie_diaria_media_por_fecha.1 dfDiarioEjemplo configPorDefecto
    [⟨20240101, 1/2, 7/10, 1/2⟩] (by decide) 20240101 (by decide)

/-! ### Demographic summary: one row per observed group -/

theorem nodup_claves (df : List FilaLimpia) :
    (clavesDemograficas df).Nodup :=
  (List.perm_insertionSort _ _).symm.nodup
    (List.nodup_dedup (df.filterMap claveDemografica))

theorem mem_claves (df : List FilaLimpia) (k : Int × String × String) :
    k ∈ clavesDemograficas df ↔
      ∃ r ∈ df, claveDemografica r = some k := by
  rw [clavesDemograficas, (List.perm_insertionSort _ _).mem_iff,
    List.mem_dedup, List.mem_filterMap]

/-- C9 counterexample: the summary's `n` counts non-null Encuesta
values, not rows; a cleaned row with a null survey identifier but
non-null grouping keys yields a group row whose `n` is 0 while the
group has one row. -/
theorem indicadores_cuenta_contraejemplo :
    ∃ ir ∈ indicadores_sociodemograficos dfSinEncuestaLimpio,
      ir.n ≠ (dfSinEncuestaLimpio.filter fun r =>
        decide (claveDemografica r =
          some (ir.fecha, ir.sexo, ir.edadRango))).length := by
  decide

/-- C9 (amended): the demographic summary has exactly one row per
(date, sex, age-bracket) group observed among cleaned rows whose three
keys are non-null, and each summary row's `n` equals the number of rows
of its group with a non-null Encuesta. -/
theorem indicadores_grupo_y_cuenta (df : List FilaLimpia)
    (k : Int × String × String) :
    ((indicadores_sociodemograficos df).filter fun ir =>
        decide ((ir.fecha, ir.sexo, ir.edadRango) = k)) =
      (if ∃ r ∈ df, claveDemografica r = some k
        then [filaIndicadores df k] else []) ∧
    ∀ ir ∈ indicadores_sociodemograficos df,
      ir.n = ((df.filter fun r =>
        decide (claveDemografica r =
          some (ir.fecha, ir.sexo, ir.edadRango))).countP
            fun r => r.encuesta.isSome) := by
  constructor
  · rw [indicadores_sociodemograficos,
      filter_map_por_clave (filaIndicadores df)
        (fun ir => (ir.fecha, ir.sexo, ir.edadRango)) (fun kk => rfl) _
        (nodup_claves df) k]
    by_cases hk : ∃ r ∈ df, claveDemografica r = some k
    · rw [if_pos ((mem_claves df k).mpr hk), if_pos hk]
    · rw [if_neg (fun hm => hk ((mem_claves df k).mp hm)), if_neg hk]
  · intro ir hir
    rw [indicadores_sociodemograficos] at hir
    obtain ⟨k', hk', hik⟩ := List.mem_map.mp hir
    subst hik
    rfl

/-- C9 witness: the amended statement at the concrete cleaned table
`dfSinEncuestaLimpio` and its single observed group. -/
theorem indicadores_grupo_y_cuenta_testigo :
    ((indicadores_sociodemograficos dfSinEncuestaLimpio).filter fun ir =>
        decide ((ir.fecha, ir.sexo, ir.edadRango) =
          ((20240101 : Int), "M", "30-44"))) =
      (if ∃ r ∈ dfSinEncuestaLimpio,
          claveDemografica r = some (20240101, "M", "30-44")
        then [filaIndicadores dfSinEncuestaLimpio (20240101, "M", "30-44")]
        else []) ∧
    filaIndicadoresEj.n = ((dfSinEncuestaLimpio.filter fun r =>
      decide (claveDemografica r = some (filaIndicadoresEj.fecha,
        filaIndicadoresEj.sexo, filaIndicadoresEj.edadRango))).countP
          fun r => r.encuesta.isSome) :=
  ⟨(indicadores_grupo_y_cuenta dfSinEncuestaLimpio
      (20240101, "M", "30-44")).1,
   (indicadores_grupo_y_cuenta dfSinEncuestaLimpio
      (20240101, "M", "30-44")).2 filaIndicadoresEj (by decide)⟩
